import Mathlib

/-!
Verification of the EM Toolkit educational electromagnetics application.

The definitions below are a shallow embedding, over the real numbers, of the
computational parts of the web modules (rectangular waveguide mode chart,
Lorentz force, RLC resonance, Helmholtz-pair uniformity, radar range profile,
plane-wave snapshot, Fresnel result rendering).  Floating-point arithmetic in
the source is modelled by exact real arithmetic; JavaScript `null` and
`Infinity` result values are modelled by an explicit value type `JsVal`.
-/

namespace EMToolkit

noncomputable section
open Classical

/-- Model of a JavaScript number-or-null result slot: a finite number, the
sentinel `Infinity`, or the absent value `null`. -/
inductive JsVal where
  | num (x : ℝ)
  | infinity
  | null
deriving DecidableEq

/-! ## Waveguide mode chart (`WaveguideModesModule.tsx`) -/

/-- Speed of light constant used by `WaveguideModesModule.tsx`. -/
def c : ℝ := 2.99792458e8

/-- TE or TM mode type. -/
inductive ModeType where
  | TE
  | TM
deriving DecidableEq

/-- One row of the waveguide mode table: indices, type, cutoff frequency,
propagation flag, and (when propagating) guided wavelength and phase/group
velocities; the latter three are `null` for evanescent modes. -/
structure Mode where
  m : ℕ
  n : ℕ
  type : ModeType
  fc : ℝ
  propagates : Prop
  lambdaG : Option ℝ
  vp : Option ℝ
  vg : Option ℝ

/-- Cutoff frequency `(c / 2) * Math.sqrt((m / (a / 1000)) ** 2 + (n / (b / 1000)) ** 2)`
from `WaveguideModesModule.tsx` (the dimensions `a`, `b` are entered in mm). -/
def cutoff (a b : ℝ) (m n : ℕ) : ℝ :=
  (c / 2) * Real.sqrt (((m : ℝ) / (a / 1000)) ^ 2 + ((n : ℝ) / (b / 1000)) ^ 2)

/-- Construction of one mode record, following the loop body of
`WaveguideModesModule.tsx`: `propagates = frequency > fc`, and
`lambdaG`, `vp`, `vg` are computed from `ratio = fc / frequency` only when
the mode propagates, staying `null` otherwise. -/
def mkMode (t : ModeType) (a b f : ℝ) (m n : ℕ) : Mode :=
  let fc := cutoff a b m n
  let ratio := fc / f
  { m := m, n := n, type := t, fc := fc,
    propagates := f > fc,
    lambdaG := if f > fc then some ((c / f) / Real.sqrt (1 - ratio * ratio)) else none,
    vp := if f > fc then some (c / Real.sqrt (1 - ratio * ratio)) else none,
    vg := if f > fc then some (c * Real.sqrt (1 - ratio * ratio)) else none }

/-- The TE double loop: `m` from 0 to `maxM`, `n` from 0 to `maxN`, skipping
`(0, 0)`. -/
def teModes (a b f : ℝ) (maxM maxN : ℕ) : List Mode :=
  (List.range (maxM + 1)).flatMap fun m =>
    (List.range (maxN + 1)).flatMap fun n =>
      if m = 0 ∧ n = 0 then [] else [mkMode ModeType.TE a b f m n]

/-- The TM double loop: `m` from 1 to `maxM`, `n` from 1 to `maxN`. -/
def tmModes (a b f : ℝ) (maxM maxN : ℕ) : List Mode :=
  (List.range maxM).flatMap fun i =>
    (List.range maxN).flatMap fun j =>
      [mkMode ModeType.TM a b f (i + 1) (j + 1)]

/-- The full mode list: TE modes then TM modes, sorted ascending by cutoff
frequency (`result.sort((x, y) => x.fc - y.fc)`). -/
def waveguideModes (a b f : ℝ) (maxM maxN : ℕ) : List Mode :=
  (teModes a b f maxM maxN ++ tmModes a b f maxM maxN).mergeSort
    fun x y => decide (x.fc ≤ y.fc)

/-- `singleModeMax = modes.length > 1 ? modes[1].fc : Infinity`. -/
def singleModeMax (modes : List Mode) : JsVal :=
  if h : 1 < modes.length then JsVal.num (modes.get ⟨1, h⟩).fc else JsVal.infinity

/-- `dominant?.fc ?? 0`: cutoff of the first listed mode, `0` when the list is
empty. -/
def dominantFc (modes : List Mode) : ℝ :=
  match modes.head? with
  | some md => md.fc
  | none => 0

/-- `singleModeBW = singleModeMax - (dominant?.fc ?? 0)` (in JavaScript,
`Infinity` minus a finite number stays `Infinity`). -/
def singleModeBW (modes : List Mode) : JsVal :=
  match singleModeMax modes with
  | JsVal.num x => JsVal.num (x - dominantFc modes)
  | v => v

/-! ## Lorentz force (`LorentzForceModule.tsx`) -/

/-- A 3-component vector of reals. -/
structure Vec3 where
  x : ℝ
  y : ℝ
  z : ℝ

/-- The result record computed by `LorentzForceModule.tsx`. -/
structure LorentzResults where
  fe : Vec3
  feMag : ℝ
  fb : Vec3
  fbMag : ℝ
  f : Vec3
  fMag : ℝ
  accel : ℝ
  vMag : ℝ
  bMag : ℝ
  cyclotronRadius : JsVal
  cyclotronFreq : ℝ

/-- The `results` computation of `LorentzForceModule.tsx`: electric force
`q·E`, magnetic force `q·(v × B)`, total force, magnitudes, acceleration, and
cyclotron radius/frequency guarded by `bMag > 0` (the radius is the sentinel
`Infinity` when `bMag = 0`, the frequency is `0`). -/
def lorentzResults (q : ℝ) (v E B : Vec3) (mass : ℝ) : LorentzResults :=
  let vCrossB : Vec3 :=
    ⟨v.y * B.z - v.z * B.y, v.z * B.x - v.x * B.z, v.x * B.y - v.y * B.x⟩
  let fe : Vec3 := ⟨q * E.x, q * E.y, q * E.z⟩
  let fb : Vec3 := ⟨q * vCrossB.x, q * vCrossB.y, q * vCrossB.z⟩
  let ft : Vec3 := ⟨fe.x + fb.x, fe.y + fb.y, fe.z + fb.z⟩
  let fMag := Real.sqrt (ft.x * ft.x + ft.y * ft.y + ft.z * ft.z)
  let feMag := Real.sqrt (fe.x * fe.x + fe.y * fe.y + fe.z * fe.z)
  let fbMag := Real.sqrt (fb.x * fb.x + fb.y * fb.y + fb.z * fb.z)
  let bMag := Real.sqrt (B.x * B.x + B.y * B.y + B.z * B.z)
  let vPerp := Real.sqrt ((v.y * B.z - v.z * B.y) ^ 2 + (v.z * B.x - v.x * B.z) ^ 2 +
    (v.x * B.y - v.y * B.x) ^ 2) / bMag
  { fe := fe, feMag := feMag, fb := fb, fbMag := fbMag, f := ft, fMag := fMag,
    accel := fMag / mass,
    vMag := Real.sqrt (v.x * v.x + v.y * v.y + v.z * v.z),
    bMag := bMag,
    cyclotronRadius :=
      if bMag > 0 then JsVal.num (mass * vPerp / (|q| * bMag)) else JsVal.infinity,
    cyclotronFreq := if bMag > 0 then |q| * bMag / (2 * Real.pi * mass) else 0 }

/-! ## Fresnel result rendering (`FresnelModule.tsx`) -/

/-- The record returned by `fresnel_oblique` as consumed by
`FresnelModule.tsx`: nullable transmission angle, TIR flag, Brewster angle,
nullable critical angle, nullable reflection coefficients. -/
structure FresnelResult where
  theta_t_deg : Option ℝ
  is_tir : Bool
  brewster_angle_deg : ℝ
  critical_angle_deg : Option ℝ
  gamma_perp : Option ℝ
  gamma_par : Option ℝ

/-- Rendering of the transmission-angle cell:
`theta_t_deg != null ? theta_t_deg.toFixed(1) + '°' : 'TIR'`.  The numeric
formatter `toFixed(1)` is abstracted as `fmt1`. -/
def renderThetaT (fmt1 : ℝ → String) (r : FresnelResult) : String :=
  match r.theta_t_deg with
  | some x => fmt1 x ++ "°"
  | none => "TIR"

/-- Rendering of the critical-angle cell:
`critical_angle_deg != null ? critical_angle_deg.toFixed(1) + '°' : 'N/A'`. -/
def renderCritical (fmt1 : ℝ → String) (r : FresnelResult) : String :=
  match r.critical_angle_deg with
  | some x => fmt1 x ++ "°"
  | none => "N/A"

/-- Rendering of the Γ⊥ cell: `gamma_perp != null ? gamma_perp.toFixed(4) : '—'`. -/
def renderGammaPerp (fmt4 : ℝ → String) (r : FresnelResult) : String :=
  match r.gamma_perp with
  | some x => fmt4 x
  | none => "—"

/-- Rendering of the Γ∥ cell: `gamma_par != null ? gamma_par.toFixed(4) : '—'`. -/
def renderGammaPar (fmt4 : ℝ → String) (r : FresnelResult) : String :=
  match r.gamma_par with
  | some x => fmt4 x
  | none => "—"

/-! ## RLC resonance (`ResonanceModule.tsx`) -/

/-- Series or parallel topology. -/
inductive Circuit where
  | series
  | parallel
deriving DecidableEq

/-- Resonant frequency `f0 = 1 / (2 * Math.PI * Math.sqrt(L * C))`. -/
def resF0 (L C : ℝ) : ℝ := 1 / (2 * Real.pi * Real.sqrt (L * C))

/-- Angular resonant frequency `omega0 = 2 * Math.PI * f0`. -/
def resOmega0 (L C : ℝ) : ℝ := 2 * Real.pi * resF0 L C

/-- Quality factor: `omega0 * L / R` for series, `R / (omega0 * L)` for
parallel. -/
def resQ (circ : Circuit) (L C R : ℝ) : ℝ :=
  match circ with
  | Circuit.series => resOmega0 L C * L / R
  | Circuit.parallel => R / (resOmega0 L C * L)

/-- Bandwidth `bw = f0 / Q`. -/
def resBW (circ : Circuit) (L C R : ℝ) : ℝ := resF0 L C / resQ circ L C R

/-- The `i`-th sample frequency of the response sweep:
`f = fMin * Math.pow(fMax / fMin, i / (n - 1))` with `fMin = f0 * 0.1`,
`fMax = f0 * 10`, `n = 500`. -/
def resFreqAt (L C : ℝ) (i : ℕ) : ℝ :=
  (resF0 L C * 0.1) * ((resF0 L C * 10) / (resF0 L C * 0.1)) ^ ((i : ℝ) / 499)

/-- The raw magnitude sample at frequency `f`: `1 / |Z|` for the series
circuit, `1 / |Y|` for the parallel circuit. -/
def resMagnitude (circ : Circuit) (L C R f : ℝ) : ℝ :=
  let w := 2 * Real.pi * f
  match circ with
  | Circuit.series =>
    1 / Real.sqrt (R * R + (w * L - 1 / (w * C)) * (w * L - 1 / (w * C)))
  | Circuit.parallel =>
    1 / Real.sqrt (1 / (R * R) + (w * C - 1 / (w * L)) * (w * C - 1 / (w * L)))

/-- Model of JavaScript `Math.atan2(y, x)` as the argument of the complex
number `x + i y`. -/
def atan2 (y x : ℝ) : ℝ := Complex.arg ⟨x, y⟩

/-- The phase sample at frequency `f`, in degrees. -/
def resPhase (circ : Circuit) (L C R f : ℝ) : ℝ :=
  let w := 2 * Real.pi * f
  match circ with
  | Circuit.series => -atan2 (w * L - 1 / (w * C)) R * 180 / Real.pi
  | Circuit.parallel => -atan2 (w * C - 1 / (w * L)) (1 / R) * 180 / Real.pi

/-- Model of JavaScript `Math.max(...l)` for the nonempty lists it is applied
to (on the empty list `Math.max()` yields `-Infinity`, which never occurs
here; that branch is given the junk value `0`). -/
def jsMax : List ℝ → ℝ
  | [] => 0
  | x :: xs => xs.foldl max x

/-- A sampled frequency-response curve: parallel lists of frequencies,
normalized magnitudes, and phases. -/
structure FreqResponse where
  freqs : List ℝ
  magnitudes : List ℝ
  phases : List ℝ

/-- The `freqResponse` computation of `ResonanceModule.tsx`: 500 samples on a
log-spaced grid, with the magnitude list normalized by its maximum before
being returned. -/
def freqResponse (circ : Circuit) (L C R : ℝ) : FreqResponse :=
  let mags := (List.range 500).map fun i => resMagnitude circ L C R (resFreqAt L C i)
  let maxM := jsMax mags
  { freqs := (List.range 500).map fun i => resFreqAt L C i,
    magnitudes := mags.map fun m => m / maxM,
    phases := (List.range 500).map fun i => resPhase circ L C R (resFreqAt L C i) }

/-! ## Radar range profile (`RadarModule.tsx`) -/

/-- The sampled range profile: ranges (km), received power (dBm), SNR (dB). -/
structure RadarProfile where
  ranges : List ℝ
  prDbm : List ℝ
  snrDb : List ℝ

/-- The range-profile loop of `RadarModule.tsx`: 300 samples with
`r = rMin + (rMax - rMin) * i / (n - 1)`,
`pr = numerator / (denominator * r^4)`, reported as dBm and as SNR in dB. -/
def radarProfile (ptx gtx grx frequency rcs rMin rMax noiseFigure bandwidth losses : ℝ) :
    RadarProfile :=
  let lambda := 3e8 / frequency
  let gTxLin := (10 : ℝ) ^ (gtx / 10)
  let gRxLin := (10 : ℝ) ^ (grx / 10)
  let lossLin := (10 : ℝ) ^ (losses / 10)
  let nfLin := (10 : ℝ) ^ (noiseFigure / 10)
  let noiseFloor := 1.38e-23 * 290 * bandwidth * nfLin
  let num := ptx * gTxLin * gRxLin * lambda * lambda * rcs
  let den := (4 * Real.pi) ^ (3 : ℕ) * lossLin
  let rAt := fun (i : ℕ) => rMin + (rMax - rMin) * i / 299
  { ranges := (List.range 300).map fun i => rAt i / 1000,
    prDbm := (List.range 300).map fun i =>
      10 * Real.logb 10 (num / (den * rAt i ^ 4)) + 30,
    snrDb := (List.range 300).map fun i =>
      10 * Real.logb 10 (num / (den * rAt i ^ 4) / noiseFloor) }

/-! ## Plane-wave snapshot (`WaveEquationModule`) -/

/-- The sampled plane-wave snapshot: positions, E field, H field, Poynting
product. -/
structure WaveData where
  zs : List ℝ
  eField : List ℝ
  hField : List ℝ
  poynting : List ℝ

/-- The `waveData` computation of `WaveEquationModule`: 500 samples of
`E = e0 cos(ω t 1e-12 - k z)`, `H = (e0 / η) cos(ω t 1e-12 - k z)` and their
product over `z` in `[0, 3λ]`. -/
def waveData (epsilonR muR frequency e0 time : ℝ) : WaveData :=
  let c0 : ℝ := 2.99792458e8
  let v := c0 / Real.sqrt (epsilonR * muR)
  let lambda := v / frequency
  let k := 2 * Real.pi / lambda
  let omega := 2 * Real.pi * frequency
  let eta := 377.0 * Real.sqrt (muR / epsilonR)
  let zAt := fun (i : ℕ) => lambda * 3 * i / 499
  { zs := (List.range 500).map fun i => zAt i,
    eField := (List.range 500).map fun i =>
      e0 * Real.cos (omega * time * 1e-12 - k * zAt i),
    hField := (List.range 500).map fun i =>
      (e0 / eta) * Real.cos (omega * time * 1e-12 - k * zAt i),
    poynting := (List.range 500).map fun i =>
      (e0 * Real.cos (omega * time * 1e-12 - k * zAt i)) *
        ((e0 / eta) * Real.cos (omega * time * 1e-12 - k * zAt i)) }

/-! ## Helmholtz-pair uniformity (`HelmholtzModule.tsx`) -/

/-- Central sample index `Math.floor(bz.length / 2)`. -/
def uCenter (bz : List ℝ) : ℕ := bz.length / 2

/-- Window half-width `Math.floor(bz.length * 0.1)`. -/
def uSpan (bz : List ℝ) : ℕ := Nat.floor ((bz.length : ℝ) * 0.1)

/-- Relative deviation of sample `i` from the central sample:
`Math.abs((bz[i] - bCenter) / bCenter)`. -/
def relDev (bz : List ℝ) (i : ℤ) : ℝ :=
  |(bz.getD i.toNat 0 - bz.getD (uCenter bz) 0) / bz.getD (uCenter bz) 0|

/-- Whether loop index `i` passes the bounds guard `i >= 0 && i < bz.length`. -/
def uValid (bz : List ℝ) (i : ℤ) : Prop := 0 ≤ i ∧ i < (bz.length : ℤ)

/-- Loop index `j` of the window scan translated to a sample index:
`i = center - span + j`. -/
def uIdx (bz : List ℝ) (j : ℕ) : ℤ := (uCenter bz : ℤ) - uSpan bz + j

/-- One step of the `uniformity` fold: for an in-bounds index keep the larger
of the accumulator and the relative deviation (`if (dev > maxDev) maxDev = dev`),
otherwise keep the accumulator. -/
def uStep (bz : List ℝ) (acc : ℝ) (j : ℕ) : ℝ :=
  if uValid bz (uIdx bz j) then max acc (relDev bz (uIdx bz j)) else acc

/-- The `uniformity` fold of `HelmholtzModule.tsx`: starting from `maxDev = 0`,
scan `i` from `center - span` to `center + span`, and for every in-bounds `i`
replace `maxDev` by the relative deviation when it is larger. -/
def uniformityDev (bz : List ℝ) : ℝ :=
  (List.range (2 * uSpan bz + 1)).foldl (uStep bz) 0

/-! ## Helper lemmas -/

theorem foldl_max_le_self (l : List ℝ) (a : ℝ) : a ≤ l.foldl max a := by
  induction l generalizing a with
  | nil => exact le_refl a
  | cons x xs ih => exact le_trans (le_max_left a x) (ih (max a x))

theorem le_foldl_max (l : List ℝ) (a y : ℝ) (hy : y ∈ l) : y ≤ l.foldl max a := by
  induction l generalizing a with
  | nil => simp at hy
  | cons x xs ih =>
    rcases List.mem_cons.mp hy with h | h
    · subst h
      exact le_trans (le_max_right a y) (foldl_max_le_self xs (max a y))
    · exact ih (max a x) h

theorem foldl_max_mem (l : List ℝ) (a : ℝ) : l.foldl max a = a ∨ l.foldl max a ∈ l := by
  induction l generalizing a with
  | nil => left; rfl
  | cons x xs ih =>
    rw [List.foldl_cons]
    rcases ih (max a x) with h | h
    · rw [h]
      rcases le_total a x with hax | hxa
      · right
        rw [max_eq_right hax]
        exact List.mem_cons_self x xs
      · left
        exact max_eq_left hxa
    · right
      exact List.mem_cons_of_mem x h

theorem le_jsMax (l : List ℝ) (y : ℝ) (hy : y ∈ l) : y ≤ jsMax l := by
  cases l with
  | nil => simp at hy
  | cons x xs =>
    rcases List.mem_cons.mp hy with h | h
    · subst h
      exact foldl_max_le_self xs y
    · exact le_foldl_max xs x y h

theorem jsMax_mem (l : List ℝ) (hl : l ≠ []) : jsMax l ∈ l := by
  cases l with
  | nil => exact absurd rfl hl
  | cons x xs =>
    rcases foldl_max_mem xs x with h | h
    · rw [show jsMax (x :: xs) = xs.foldl max x from rfl, h]
      exact List.mem_cons_self x xs
    · exact List.mem_cons_of_mem x h

/-! ## Claim theorems -/

/-- Claim C9: for every charge `q`, velocity `v`, and magnetic flux density
`B`, the magnetic force component `F_B = q (v × B)` computed by the Lorentz
force module is exactly orthogonal to the velocity: `F_B · v = 0` in exact
real arithmetic. -/
theorem magnetic_force_orthogonal_to_velocity (q : ℝ) (v E B : Vec3) (mass : ℝ) :
    (lorentzResults q v E B mass).fb.x * v.x + (lorentzResults q v E B mass).fb.y * v.y +
      (lorentzResults q v E B mass).fb.z * v.z = 0 := by
  simp only [lorentzResults]
  ring

/-- Claim C7: for every Fresnel result record, an absent transmission angle
(total internal reflection) renders as the label `TIR`, an absent critical
angle renders as `N/A`, and absent reflection coefficients render as dashes,
independently of the numeric formatter used for present values. -/
theorem fresnel_absent_fields_render_labels (fmt1 fmt4 : ℝ → String) (r : FresnelResult) :
    (r.theta_t_deg = none → renderThetaT fmt1 r = "TIR") ∧
    (r.critical_angle_deg = none → renderCritical fmt1 r = "N/A") ∧
    (r.gamma_perp = none → renderGammaPerp fmt4 r = "—") ∧
    (r.gamma_par = none → renderGammaPar fmt4 r = "—") := by
  refine ⟨fun h => ?_, fun h => ?_, fun h => ?_, fun h => ?_⟩ <;>
    simp [renderThetaT, renderCritical, renderGammaPerp, renderGammaPar, h]

/-- Witness for C7 at a concrete all-absent result record. -/
theorem fresnel_absent_fields_render_labels_witness :
    renderThetaT (fun _ => "") ⟨none, true, 0, none, none, none⟩ = "TIR" ∧
    renderCritical (fun _ => "") ⟨none, true, 0, none, none, none⟩ = "N/A" ∧
    renderGammaPerp (fun _ => "") ⟨none, true, 0, none, none, none⟩ = "—" ∧
    renderGammaPar (fun _ => "") ⟨none, true, 0, none, none, none⟩ = "—" := by
  have h := fresnel_absent_fields_render_labels (fun _ => "") (fun _ => "")
    ⟨none, true, 0, none, none, none⟩
  exact ⟨h.1 rfl, h.2.1 rfl, h.2.2.1 rfl, h.2.2.2 rfl⟩

/-- Counterexample to claim C4 as stated: at the module's default inputs with
`B = 0`, the cyclotron-radius slot of the result record holds the sentinel
`Infinity`, not the explicit absent value `null`. -/
theorem cyclotron_radius_zero_b_counterexample :
    (lorentzResults 1.6e-19 ⟨1e6, 0, 0⟩ ⟨0, 100, 0⟩ ⟨0, 0, 0⟩ 9.109e-31).cyclotronRadius
        ≠ JsVal.null ∧
    (lorentzResults 1.6e-19 ⟨1e6, 0, 0⟩ ⟨0, 100, 0⟩ ⟨0, 0, 0⟩ 9.109e-31).cyclotronRadius
        = JsVal.infinity := by
  have h : (lorentzResults 1.6e-19 ⟨1e6, 0, 0⟩ ⟨0, 100, 0⟩ ⟨0, 0, 0⟩
      9.109e-31).cyclotronRadius = JsVal.infinity := by
    norm_num [lorentzResults, Real.sqrt_zero]
  exact ⟨by rw [h]; simp, h⟩

/-- Claim C4 as amended: for every charge `q`, mass `m > 0`, and velocity
vector, when the magnetic flux density is zero the cyclotron radius is
represented by the sentinel value `Infinity` (and the cyclotron frequency by
`0`), not by an explicit absent value. -/
theorem cyclotron_radius_zero_b_is_infinity_sentinel (q mass : ℝ) (hm : 0 < mass)
    (v E : Vec3) :
    (lorentzResults q v E ⟨0, 0, 0⟩ mass).cyclotronRadius = JsVal.infinity ∧
    (lorentzResults q v E ⟨0, 0, 0⟩ mass).cyclotronFreq = 0 ∧
    JsVal.infinity ≠ JsVal.null := by
  refine ⟨?_, ?_, by simp⟩ <;> norm_num [lorentzResults, Real.sqrt_zero]

/-- Witness for the amended C4 at concrete inputs. -/
theorem cyclotron_radius_zero_b_is_infinity_sentinel_witness :
    (lorentzResults 1.6e-19 ⟨1e6, 0, 0⟩ ⟨0, 100, 0⟩ ⟨0, 0, 0⟩ 9.109e-31).cyclotronRadius
        = JsVal.infinity ∧
    (lorentzResults 1.6e-19 ⟨1e6, 0, 0⟩ ⟨0, 100, 0⟩ ⟨0, 0, 0⟩ 9.109e-31).cyclotronFreq = 0 ∧
    JsVal.infinity ≠ JsVal.null :=
  cyclotron_radius_zero_b_is_infinity_sentinel 1.6e-19 9.109e-31 (by norm_num)
    ⟨1e6, 0, 0⟩ ⟨0, 100, 0⟩

/-- Claim C8: every sampled curve consists of parallel lists of one fixed
length: 500 samples for the RLC frequency response, 300 for the radar range
profile, and 500 for the plane-wave snapshot, for all parameter values. -/
theorem sampled_curves_have_fixed_equal_lengths
    (circ : Circuit) (L C R : ℝ)
    (ptx gtx grx frequency rcs rMin rMax noiseFigure bandwidth losses : ℝ)
    (epsilonR muR waveFreq e0 time : ℝ) :
    ((freqResponse circ L C R).freqs.length = 500 ∧
     (freqResponse circ L C R).magnitudes.length = 500 ∧
     (freqResponse circ L C R).phases.length = 500) ∧
    ((radarProfile ptx gtx grx frequency rcs rMin rMax noiseFigure bandwidth
        losses).ranges.length = 300 ∧
     (radarProfile ptx gtx grx frequency rcs rMin rMax noiseFigure bandwidth
        losses).prDbm.length = 300 ∧
     (radarProfile ptx gtx grx frequency rcs rMin rMax noiseFigure bandwidth
        losses).snrDb.length = 300) ∧
    ((waveData epsilonR muR waveFreq e0 time).zs.length = 500 ∧
     (waveData epsilonR muR waveFreq e0 time).eField.length = 500 ∧
     (waveData epsilonR muR waveFreq e0 time).hField.length = 500 ∧
     (waveData epsilonR muR waveFreq e0 time).poynting.length = 500) := by
  simp [freqResponse, radarProfile, waveData]

/-- Claim C5: for all positive `L`, `C`, `R` the RLC resonance computation
returns `f0 = 1 / (2 π √(L C))`, quality factor `ω0 L / R` for the series
topology and `R / (ω0 L)` for the parallel topology, and bandwidth `f0 / Q`;
for `L = 1 mH` and `C = 1 nF` the resonant frequency is about 159.15 kHz. -/
theorem rlc_resonance_formulas (L C R : ℝ) (hL : 0 < L) (hC : 0 < C) (hR : 0 < R) :
    resF0 L C = 1 / (2 * Real.pi * Real.sqrt (L * C)) ∧
    resQ Circuit.series L C R = resOmega0 L C * L / R ∧
    resQ Circuit.parallel L C R = R / (resOmega0 L C * L) ∧
    (∀ circ : Circuit, resBW circ L C R = resF0 L C / resQ circ L C R) ∧
    159150 < resF0 1e-3 1e-9 ∧ resF0 1e-3 1e-9 < 159160 := by
  have hs : Real.sqrt ((1e-3 : ℝ) * 1e-9) = 1e-6 := by
    rw [show (1e-3 : ℝ) * 1e-9 = (1e-6 : ℝ) ^ 2 by norm_num]
    exact Real.sqrt_sq (by norm_num)
  have hf0 : resF0 1e-3 1e-9 = 1 / (2 * Real.pi * 1e-6) := by
    rw [resF0, hs]
  have hπl : (3.141592 : ℝ) < Real.pi := Real.pi_gt_d6
  have hπu : Real.pi < (3.141593 : ℝ) := Real.pi_lt_d6
  have hden : (0 : ℝ) < 2 * Real.pi * 1e-6 := by positivity
  refine ⟨rfl, rfl, rfl, fun circ => rfl, ?_, ?_⟩
  · rw [hf0, lt_div_iff hden]
    nlinarith
  · rw [hf0, div_lt_iff hden]
    nlinarith

/-- Witness for C5 at `L = 1 mH`, `C = 1 nF`, `R = 50 Ω`. -/
theorem rlc_resonance_formulas_witness :
    resF0 1e-3 1e-9 = 1 / (2 * Real.pi * Real.sqrt ((1e-3 : ℝ) * 1e-9)) ∧
    resQ Circuit.series 1e-3 1e-9 50 = resOmega0 1e-3 1e-9 * 1e-3 / 50 ∧
    resQ Circuit.parallel 1e-3 1e-9 50 = 50 / (resOmega0 1e-3 1e-9 * 1e-3) ∧
    (∀ circ : Circuit, resBW circ 1e-3 1e-9 50 = resF0 1e-3 1e-9 / resQ circ 1e-3 1e-9 50) ∧
    159150 < resF0 1e-3 1e-9 ∧ resF0 1e-3 1e-9 < 159160 :=
  rlc_resonance_formulas 1e-3 1e-9 50 (by norm_num) (by norm_num) (by norm_num)

/-- Positivity of the raw magnitude samples of the RLC frequency response. -/
theorem resMagnitude_pos (circ : Circuit) (L C R f : ℝ) (hR : 0 < R) :
    0 < resMagnitude circ L C R f := by
  have key : ∀ x e : ℝ, 0 < x → 0 < 1 / Real.sqrt (x + e * e) := fun x e hx =>
    one_div_pos.mpr (Real.sqrt_pos.mpr (by nlinarith [mul_self_nonneg e]))
  cases circ with
  | series =>
    simp only [resMagnitude]
    exact key (R * R) _ (mul_pos hR hR)
  | parallel =>
    simp only [resMagnitude]
    exact key (1 / (R * R)) _ (one_div_pos.mpr (mul_pos hR hR))

/-- Claim C10: the RLC frequency-response magnitude curve is returned
normalized to its peak: every sample lies in `[0, 1]` and the maximum sample
equals `1`. -/
theorem rlc_magnitudes_normalized_to_peak (circ : Circuit) (L C R : ℝ)
    (hL : 0 < L) (hC : 0 < C) (hR : 0 < R) :
    (∀ y ∈ (freqResponse circ L C R).magnitudes, 0 ≤ y ∧ y ≤ 1) ∧
    (freqResponse circ L C R).magnitudes.maximum = ((1 : ℝ) : WithBot ℝ) := by
  set mags := (List.range 500).map (fun i => resMagnitude circ L C R (resFreqAt L C i))
    with hmagsdef
  have hpos : ∀ y ∈ mags, 0 < y := by
    intro y hy
    obtain ⟨i, _, rfl⟩ := List.mem_map.mp hy
    exact resMagnitude_pos circ L C R _ hR
  have hne : mags ≠ [] := by simp [hmagsdef]
  have hMmem : jsMax mags ∈ mags := jsMax_mem mags hne
  have hMpos : 0 < jsMax mags := hpos _ hMmem
  have hshow : (freqResponse circ L C R).magnitudes = mags.map fun m => m / jsMax mags := by
    simp only [freqResponse]
  rw [hshow]
  have hbound : ∀ y ∈ mags.map (fun m => m / jsMax mags), 0 ≤ y ∧ y ≤ 1 := by
    intro y hy
    obtain ⟨m, hm, rfl⟩ := List.mem_map.mp hy
    exact ⟨div_nonneg (hpos m hm).le hMpos.le, (div_le_one hMpos).mpr (le_jsMax mags m hm)⟩
  have hone : (1 : ℝ) ∈ mags.map fun m => m / jsMax mags :=
    List.mem_map.mpr ⟨jsMax mags, hMmem, div_self hMpos.ne'⟩
  exact ⟨hbound, List.maximum_eq_coe_iff.mpr ⟨hone, fun a ha => (hbound a ha).2⟩⟩

/-- Witness for C10 at `L = C = R = 1`. -/
theorem rlc_magnitudes_normalized_to_peak_witness :
    (∀ y ∈ (freqResponse Circuit.series 1 1 1).magnitudes, 0 ≤ y ∧ y ≤ 1) ∧
    (freqResponse Circuit.series 1 1 1).magnitudes.maximum = ((1 : ℝ) : WithBot ℝ) :=
  rlc_magnitudes_normalized_to_peak Circuit.series 1 1 1 (by norm_num) (by norm_num)
    (by norm_num)

/-- Bounds for the guarded-max fold underlying the Helmholtz uniformity scan:
the accumulator never decreases, every accepted deviation is dominated by the
result, and the result is either the initial accumulator or one of the
accepted deviations. -/
theorem uStep_foldl_bounds (bz : List ℝ) (l : List ℕ) (a : ℝ) :
    a ≤ l.foldl (uStep bz) a ∧
    (∀ j ∈ l, uValid bz (uIdx bz j) → relDev bz (uIdx bz j) ≤ l.foldl (uStep bz) a) ∧
    (l.foldl (uStep bz) a = a ∨
      ∃ j ∈ l, uValid bz (uIdx bz j) ∧ l.foldl (uStep bz) a = relDev bz (uIdx bz j)) := by
  induction l generalizing a with
  | nil => exact ⟨le_refl a, by simp, Or.inl rfl⟩
  | cons x xs ih =>
    obtain ⟨ih1, ih2, ih3⟩ := ih (uStep bz a x)
    have hstep : a ≤ uStep bz a x := by
      rw [uStep]
      split
      · exact le_max_left _ _
      · exact le_refl a
    rw [List.foldl_cons]
    refine ⟨le_trans hstep ih1, ?_, ?_⟩
    · intro j hj hP
      rcases List.mem_cons.mp hj with rfl | hj'
      · have hd : relDev bz (uIdx bz j) ≤ uStep bz a j := by
          rw [uStep, if_pos hP]
          exact le_max_right _ _
        exact le_trans hd ih1
      · exact ih2 j hj' hP
    · rcases ih3 with h | h
      · by_cases hP : uValid bz (uIdx bz x)
        · rw [h, uStep, if_pos hP]
          rcases le_total (relDev bz (uIdx bz x)) a with hda | had
          · left
            exact max_eq_left hda
          · right
            exact ⟨x, List.mem_cons_self x xs, hP, max_eq_right had⟩
        · left
          rw [h, uStep, if_neg hP]
      · right
        obtain ⟨j, hj, hPj, hval⟩ := h
        exact ⟨j, List.mem_cons_of_mem x hj, hPj, hval⟩

/-- Claim C6: the Helmholtz-pair uniformity figure is exactly the maximum of
the relative deviations `|B(z_i) - B(z_center)| / |B(z_center)|` over the
samples whose index lies within `±span` of the central sample, where
`span = ⌊0.1 · length⌋`: the figure dominates every such deviation and is
attained by one of them, for every curve with a nonzero central value. -/
theorem helmholtz_uniformity_is_window_max (bz : List ℝ)
    (hlen : bz ≠ []) (hc : bz.getD (uCenter bz) 0 ≠ 0) :
    (∀ i : ℤ, (uCenter bz : ℤ) - uSpan bz ≤ i → i ≤ (uCenter bz : ℤ) + uSpan bz →
      uValid bz i → relDev bz i ≤ uniformityDev bz) ∧
    (∃ i : ℤ, ((uCenter bz : ℤ) - uSpan bz ≤ i ∧ i ≤ (uCenter bz : ℤ) + uSpan bz ∧
      uValid bz i) ∧ relDev bz i = uniformityDev bz) ∧
    (∀ i : ℤ, relDev bz i =
      |bz.getD i.toNat 0 - bz.getD (uCenter bz) 0| / |bz.getD (uCenter bz) 0|) := by
  obtain ⟨h0, hub, hattain⟩ := uStep_foldl_bounds bz (List.range (2 * uSpan bz + 1)) 0
  have hlenpos : 0 < bz.length := List.length_pos.mpr hlen
  have hcenter_lt : uCenter bz < bz.length := Nat.div_lt_self hlenpos (by norm_num)
  have hcenter_valid : uValid bz ((uCenter bz : ℤ)) :=
    ⟨Int.natCast_nonneg _, by exact_mod_cast hcenter_lt⟩
  have hcenter_dev : relDev bz ((uCenter bz : ℤ)) = 0 := by
    rw [relDev]
    simp
  refine ⟨?_, ?_, fun i => abs_div _ _⟩
  · intro i hlo hhi hv
    have hj : ∃ j : ℕ, j ∈ List.range (2 * uSpan bz + 1) ∧ uIdx bz j = i := by
      refine ⟨(i - ((uCenter bz : ℤ) - uSpan bz)).toNat, ?_, ?_⟩
      · rw [List.mem_range]
        omega
      · rw [uIdx]
        omega
    obtain ⟨j, hjmem, hji⟩ := hj
    have := hub j hjmem (by rwa [hji])
    rwa [hji] at this
  · rcases hattain with h | h
    · refine ⟨(uCenter bz : ℤ), ⟨by omega, by omega, hcenter_valid⟩, ?_⟩
      rw [hcenter_dev, uniformityDev, h]
    · obtain ⟨j, hjmem, hPj, hval⟩ := h
      rw [List.mem_range] at hjmem
      refine ⟨uIdx bz j, ⟨?_, ?_, hPj⟩, ?_⟩
      · rw [uIdx]
        omega
      · rw [uIdx]
        omega
      · rw [uniformityDev, hval]

/-- Witness for C6 at the concrete curve `[1, 2, 1]` (central sample `2`). -/
theorem helmholtz_uniformity_is_window_max_witness :
    (∀ i : ℤ, (uCenter [(1 : ℝ), 2, 1] : ℤ) - uSpan [(1 : ℝ), 2, 1] ≤ i →
      i ≤ (uCenter [(1 : ℝ), 2, 1] : ℤ) + uSpan [(1 : ℝ), 2, 1] →
      uValid [(1 : ℝ), 2, 1] i →
      relDev [(1 : ℝ), 2, 1] i ≤ uniformityDev [(1 : ℝ), 2, 1]) ∧
    (∃ i : ℤ, ((uCenter [(1 : ℝ), 2, 1] : ℤ) - uSpan [(1 : ℝ), 2, 1] ≤ i ∧
      i ≤ (uCenter [(1 : ℝ), 2, 1] : ℤ) + uSpan [(1 : ℝ), 2, 1] ∧
      uValid [(1 : ℝ), 2, 1] i) ∧
      relDev [(1 : ℝ), 2, 1] i = uniformityDev [(1 : ℝ), 2, 1]) ∧
    (∀ i : ℤ, relDev [(1 : ℝ), 2, 1] i =
      |([(1 : ℝ), 2, 1].getD i.toNat 0 - [(1 : ℝ), 2, 1].getD (uCenter [(1 : ℝ), 2, 1]) 0)| /
        |[(1 : ℝ), 2, 1].getD (uCenter [(1 : ℝ), 2, 1]) 0|) :=
  helmholtz_uniformity_is_window_max [(1 : ℝ), 2, 1] (by simp)
    (by norm_num [uCenter])

/-- The cutoff frequency is nonnegative. -/
theorem cutoff_nonneg (a b : ℝ) (m n : ℕ) : 0 ≤ cutoff a b m n := by
  rw [cutoff]
  have hc : (0 : ℝ) ≤ c / 2 := by norm_num [c]
  exact mul_nonneg hc (Real.sqrt_nonneg _)

theorem mkMode_type (t : ModeType) (a b f : ℝ) (m n : ℕ) :
    (mkMode t a b f m n).type = t := rfl

theorem mkMode_m (t : ModeType) (a b f : ℝ) (m n : ℕ) :
    (mkMode t a b f m n).m = m := rfl

theorem mkMode_n (t : ModeType) (a b f : ℝ) (m n : ℕ) :
    (mkMode t a b f m n).n = n := rfl

theorem mkMode_fc (t : ModeType) (a b f : ℝ) (m n : ℕ) :
    (mkMode t a b f m n).fc = cutoff a b m n := rfl

theorem mkMode_propagates (t : ModeType) (a b f : ℝ) (m n : ℕ) :
    (mkMode t a b f m n).propagates = (f > cutoff a b m n) := rfl

theorem mkMode_vp_of_propagating (t : ModeType) (a b f : ℝ) (m n : ℕ)
    (h : f > cutoff a b m n) :
    (mkMode t a b f m n).vp =
      some (c / Real.sqrt (1 - cutoff a b m n / f * (cutoff a b m n / f))) := by
  simp only [mkMode, if_pos h]

theorem mkMode_vg_of_propagating (t : ModeType) (a b f : ℝ) (m n : ℕ)
    (h : f > cutoff a b m n) :
    (mkMode t a b f m n).vg =
      some (c * Real.sqrt (1 - cutoff a b m n / f * (cutoff a b m n / f))) := by
  simp only [mkMode, if_pos h]

/-- Membership in the TE loop output. -/
theorem mem_teModes (a b f : ℝ) (maxM maxN : ℕ) (md : Mode) :
    md ∈ teModes a b f maxM maxN ↔
      ∃ m n : ℕ, m ≤ maxM ∧ n ≤ maxN ∧ ¬(m = 0 ∧ n = 0) ∧
        md = mkMode ModeType.TE a b f m n := by
  simp only [teModes, List.mem_flatMap, List.mem_range, Nat.lt_succ_iff,
    List.mem_ite_nil_left, List.mem_singleton]
  constructor
  · rintro ⟨m, hm, n, hn, hP, hmd⟩
    exact ⟨m, n, hm, hn, hP, hmd⟩
  · rintro ⟨m, n, hm, hn, hP, hmd⟩
    exact ⟨m, hm, n, hn, hP, hmd⟩

/-- Membership in the TM loop output. -/
theorem mem_tmModes (a b f : ℝ) (maxM maxN : ℕ) (md : Mode) :
    md ∈ tmModes a b f maxM maxN ↔
      ∃ m n : ℕ, 1 ≤ m ∧ m ≤ maxM ∧ 1 ≤ n ∧ n ≤ maxN ∧
        md = mkMode ModeType.TM a b f m n := by
  simp only [tmModes, List.mem_flatMap, List.mem_range, List.mem_singleton]
  constructor
  · rintro ⟨i, hi, j, hj, hmd⟩
    exact ⟨i + 1, j + 1, by omega, by omega, by omega, by omega, hmd⟩
  · rintro ⟨m, n, hm1, hm2, hn1, hn2, hmd⟩
    refine ⟨m - 1, by omega, n - 1, by omega, ?_⟩
    rw [show m - 1 + 1 = m by omega, show n - 1 + 1 = n by omega]
    exact hmd

/-- Membership in the sorted mode list, reduced to the two loops. -/
theorem mem_waveguideModes (a b f : ℝ) (maxM maxN : ℕ) (md : Mode) :
    md ∈ waveguideModes a b f maxM maxN ↔
      md ∈ teModes a b f maxM maxN ∨ md ∈ tmModes a b f maxM maxN := by
  rw [waveguideModes, List.mem_mergeSort, List.mem_append]

/-- Claim C1: the rectangular-waveguide enumeration produces exactly the TE
modes with `0 ≤ m ≤ maxM`, `0 ≤ n ≤ maxN`, `(m, n) ≠ (0, 0)` and the TM modes
with `1 ≤ m ≤ maxM`, `1 ≤ n ≤ maxN`; each listed mode carries the cutoff
frequency `(c/2)·√((m/a)² + (n/b)²)` (with `a`, `b` converted from mm to m),
and is marked propagating exactly when the operating frequency exceeds its
cutoff. -/
theorem waveguide_mode_enumeration (a b f : ℝ) (ha : 0 < a) (hb : 0 < b)
    (maxM maxN : ℕ) :
    (∀ md ∈ waveguideModes a b f maxM maxN,
      ((md.type = ModeType.TE ∧ md.m ≤ maxM ∧ md.n ≤ maxN ∧ ¬(md.m = 0 ∧ md.n = 0)) ∨
       (md.type = ModeType.TM ∧ 1 ≤ md.m ∧ md.m ≤ maxM ∧ 1 ≤ md.n ∧ md.n ≤ maxN)) ∧
      md.fc = (c / 2) *
        Real.sqrt (((md.m : ℝ) / (a / 1000)) ^ 2 + ((md.n : ℝ) / (b / 1000)) ^ 2) ∧
      (md.propagates ↔ f > md.fc)) ∧
    (∀ m n : ℕ, m ≤ maxM → n ≤ maxN → ¬(m = 0 ∧ n = 0) →
      ∃ md ∈ waveguideModes a b f maxM maxN,
        md.type = ModeType.TE ∧ md.m = m ∧ md.n = n) ∧
    (∀ m n : ℕ, 1 ≤ m → m ≤ maxM → 1 ≤ n → n ≤ maxN →
      ∃ md ∈ waveguideModes a b f maxM maxN,
        md.type = ModeType.TM ∧ md.m = m ∧ md.n = n) := by
  refine ⟨?_, ?_, ?_⟩
  · intro md hmd
    rcases (mem_waveguideModes a b f maxM maxN md).mp hmd with h | h
    · obtain ⟨m, n, hm, hn, hP, rfl⟩ := (mem_teModes a b f maxM maxN md).mp h
      refine ⟨Or.inl ⟨mkMode_type _ _ _ _ _ _, hm, hn, hP⟩, ?_, ?_⟩
      · rw [mkMode_fc, cutoff, mkMode_m, mkMode_n]
      · rw [mkMode_propagates, mkMode_fc]
    · obtain ⟨m, n, hm1, hm2, hn1, hn2, rfl⟩ := (mem_tmModes a b f maxM maxN md).mp h
      refine ⟨Or.inr ⟨mkMode_type _ _ _ _ _ _, hm1, hm2, hn1, hn2⟩, ?_, ?_⟩
      · rw [mkMode_fc, cutoff, mkMode_m, mkMode_n]
      · rw [mkMode_propagates, mkMode_fc]
  · intro m n hm hn hP
    refine ⟨mkMode ModeType.TE a b f m n, ?_, rfl, rfl, rfl⟩
    exact (mem_waveguideModes a b f maxM maxN _).mpr
      (Or.inl ((mem_teModes a b f maxM maxN _).mpr ⟨m, n, hm, hn, hP, rfl⟩))
  · intro m n hm1 hm2 hn1 hn2
    refine ⟨mkMode ModeType.TM a b f m n, ?_, rfl, rfl, rfl⟩
    exact (mem_waveguideModes a b f maxM maxN _).mpr
      (Or.inr ((mem_tmModes a b f maxM maxN _).mpr ⟨m, n, hm1, hm2, hn1, hn2, rfl⟩))

/-- Witness for C1 for the WR-90-like geometry `a = 22.86 mm`, `b = 10.16 mm`
at 10 GHz with `maxM = maxN = 3`. -/
theorem waveguide_mode_enumeration_witness :
    (∀ md ∈ waveguideModes 22.86 10.16 1e10 3 3,
      ((md.type = ModeType.TE ∧ md.m ≤ 3 ∧ md.n ≤ 3 ∧ ¬(md.m = 0 ∧ md.n = 0)) ∨
       (md.type = ModeType.TM ∧ 1 ≤ md.m ∧ md.m ≤ 3 ∧ 1 ≤ md.n ∧ md.n ≤ 3)) ∧
      md.fc = (c / 2) *
        Real.sqrt (((md.m : ℝ) / ((22.86 : ℝ) / 1000)) ^ 2 +
          ((md.n : ℝ) / ((10.16 : ℝ) / 1000)) ^ 2) ∧
      (md.propagates ↔ (1e10 : ℝ) > md.fc)) ∧
    (∀ m n : ℕ, m ≤ 3 → n ≤ 3 → ¬(m = 0 ∧ n = 0) →
      ∃ md ∈ waveguideModes 22.86 10.16 1e10 3 3,
        md.type = ModeType.TE ∧ md.m = m ∧ md.n = n) ∧
    (∀ m n : ℕ, 1 ≤ m → m ≤ 3 → 1 ≤ n → n ≤ 3 →
      ∃ md ∈ waveguideModes 22.86 10.16 1e10 3 3,
        md.type = ModeType.TM ∧ md.m = m ∧ md.n = n) :=
  waveguide_mode_enumeration 22.86 10.16 1e10 (by norm_num) (by norm_num) 3 3

/-- Claim C2: every mode the enumeration marks as propagating carries phase
and group velocities whose product is exactly `c²` in real arithmetic, for
all valid geometries and frequencies. -/
theorem propagating_mode_velocity_product (a b f : ℝ) (ha : 0 < a) (hb : 0 < b)
    (maxM maxN : ℕ) (md : Mode)
    (hmem : md ∈ waveguideModes a b f maxM maxN) (hp : md.propagates) :
    ∃ vp vg : ℝ, md.vp = some vp ∧ md.vg = some vg ∧ vp * vg = c ^ 2 := by
  have hkey : ∀ t m n, md = mkMode t a b f m n →
      ∃ vp vg : ℝ, md.vp = some vp ∧ md.vg = some vg ∧ vp * vg = c ^ 2 := by
    intro t m n hmd
    subst hmd
    have hprop : f > cutoff a b m n := hp
    have hfc0 : 0 ≤ cutoff a b m n := cutoff_nonneg a b m n
    have hf : 0 < f := lt_of_le_of_lt hfc0 hprop
    have hr0 : 0 ≤ cutoff a b m n / f := div_nonneg hfc0 hf.le
    have hr1 : cutoff a b m n / f < 1 := (div_lt_one hf).mpr hprop
    have hs : 0 < 1 - cutoff a b m n / f * (cutoff a b m n / f) := by nlinarith
    have hsqrt : Real.sqrt (1 - cutoff a b m n / f * (cutoff a b m n / f)) ≠ 0 :=
      (Real.sqrt_pos.mpr hs).ne'
    refine ⟨_, _, mkMode_vp_of_propagating t a b f m n hprop,
      mkMode_vg_of_propagating t a b f m n hprop, ?_⟩
    have hgoal : ∀ s : ℝ, s ≠ 0 → c / s * (c * s) = c ^ 2 := by
      intro s hsne
      field_simp
      ring
    exact hgoal _ hsqrt
  rcases (mem_waveguideModes a b f maxM maxN md).mp hmem with h | h
  · obtain ⟨m, n, _, _, _, hmd⟩ := (mem_teModes a b f maxM maxN md).mp h
    exact hkey _ m n hmd
  · obtain ⟨m, n, _, _, _, _, hmd⟩ := (mem_tmModes a b f maxM maxN md).mp h
    exact hkey _ m n hmd

/-- Witness for C2: the TE₁₀ mode of a 2 m × 1 m guide driven at `f = c`
(well above its cutoff `c/4`). -/
theorem propagating_mode_velocity_product_witness :
    ∃ vp vg : ℝ, (mkMode ModeType.TE 2000 1000 c 1 0).vp = some vp ∧
      (mkMode ModeType.TE 2000 1000 c 1 0).vg = some vg ∧ vp * vg = c ^ 2 := by
  have hcut : cutoff 2000 1000 1 0 = c / 4 := by
    rw [cutoff]
    norm_num
    rw [show (4 : ℝ) = 2 ^ 2 by norm_num, Real.sqrt_sq (by norm_num : (0 : ℝ) ≤ 2)]
    ring
  have hprop : (mkMode ModeType.TE 2000 1000 c 1 0).propagates := by
    rw [mkMode_propagates, hcut]
    norm_num [c]
  have hmem : mkMode ModeType.TE 2000 1000 c 1 0 ∈ waveguideModes 2000 1000 c 1 0 :=
    (mem_waveguideModes 2000 1000 c 1 0 _).mpr
      (Or.inl ((mem_teModes 2000 1000 c 1 0 _).mpr
        ⟨1, 0, le_refl 1, le_refl 0, by omega, rfl⟩))
  exact propagating_mode_velocity_product 2000 1000 c (by norm_num) (by norm_num) 1 0
    (mkMode ModeType.TE 2000 1000 c 1 0) hmem hprop

/-- The returned mode list is sorted by cutoff frequency. -/
theorem waveguideModes_sorted (a b f : ℝ) (maxM maxN : ℕ) :
    List.Sorted (fun x y : Mode => x.fc ≤ y.fc) (waveguideModes a b f maxM maxN) := by
  have h := @List.sorted_mergeSort Mode
    (fun x y : Mode => decide (x.fc ≤ y.fc))
    (fun x y z hxy hyz => by
      simp only [decide_eq_true_eq] at hxy hyz ⊢
      exact le_trans hxy hyz)
    (fun x y => by
      simp only [Bool.or_eq_true, decide_eq_true_eq]
      exact le_total x.fc y.fc)
    (teModes a b f maxM maxN ++ tmModes a b f maxM maxN)
  rw [waveguideModes]
  exact h.imp fun hxy => by simpa using hxy

/-- On a list with at least two entries, `singleModeBW` is the cutoff of the
second entry minus the cutoff of the first. -/
theorem singleModeBW_cons_cons (m0 m1 : Mode) (rest : List Mode) :
    singleModeBW (m0 :: m1 :: rest) = JsVal.num (m1.fc - m0.fc) := by
  have hlen : 1 < (m0 :: m1 :: rest).length := by simp
  rw [singleModeBW, singleModeMax, dif_pos hlen]
  simp [dominantFc]

/-- Claim C3: the returned waveguide mode list is sorted ascending by cutoff;
the first listed (dominant) mode has the lowest cutoff of all listed modes;
and whenever at least two modes exist the single-mode bandwidth equals the
second entry's cutoff (the second-lowest, as it bounds all later ones) minus
the dominant cutoff. -/
theorem waveguide_sorted_dominant_bandwidth (a b f : ℝ) (ha : 0 < a) (hb : 0 < b)
    (maxM maxN : ℕ) :
    List.Sorted (fun x y : Mode => x.fc ≤ y.fc) (waveguideModes a b f maxM maxN) ∧
    (∀ d ∈ (waveguideModes a b f maxM maxN).head?,
      ∀ md ∈ waveguideModes a b f maxM maxN, d.fc ≤ md.fc) ∧
    (∀ m0 m1 : Mode, ∀ rest : List Mode,
      waveguideModes a b f maxM maxN = m0 :: m1 :: rest →
      singleModeBW (waveguideModes a b f maxM maxN) = JsVal.num (m1.fc - m0.fc) ∧
      ∀ md ∈ m1 :: rest, m1.fc ≤ md.fc) := by
  have hsorted := waveguideModes_sorted a b f maxM maxN
  refine ⟨hsorted, ?_, ?_⟩
  · intro d hd md hmd
    cases hlist : waveguideModes a b f maxM maxN with
    | nil =>
      rw [hlist] at hd
      simp at hd
    | cons x xs =>
      rw [hlist] at hd hmd
      have hsorted' := hsorted
      rw [hlist] at hsorted'
      have hdx : d = x := by
        have := hd
        simp at this
        exact this.symm
      subst hdx
      rcases List.mem_cons.mp hmd with rfl | hmd'
      · exact le_refl _
      · exact List.rel_of_sorted_cons hsorted' md hmd'
  · intro m0 m1 rest hlist
    have hsorted' := hsorted
    rw [hlist] at hsorted'
    refine ⟨by rw [hlist]; exact singleModeBW_cons_cons m0 m1 rest, ?_⟩
    intro md hmd
    rcases List.mem_cons.mp hmd with rfl | hmd'
    · exact le_refl _
    · exact List.rel_of_sorted_cons (List.Sorted.of_cons hsorted') md hmd'

/-- Witness for C3 for a 2 m × 1 m guide at `f = c` with `maxM = 1`,
`maxN = 1`. -/
theorem waveguide_sorted_dominant_bandwidth_witness :
    List.Sorted (fun x y : Mode => x.fc ≤ y.fc) (waveguideModes 2000 1000 c 1 1) ∧
    (∀ d ∈ (waveguideModes 2000 1000 c 1 1).head?,
      ∀ md ∈ waveguideModes 2000 1000 c 1 1, d.fc ≤ md.fc) ∧
    (∀ m0 m1 : Mode, ∀ rest : List Mode,
      waveguideModes 2000 1000 c 1 1 = m0 :: m1 :: rest →
      singleModeBW (waveguideModes 2000 1000 c 1 1) = JsVal.num (m1.fc - m0.fc) ∧
      ∀ md ∈ m1 :: rest, m1.fc ≤ md.fc) :=
  waveguide_sorted_dominant_bandwidth 2000 1000 c (by norm_num) (by norm_num) 1 1

end

end EMToolkit
